import Mathlib

/-!
Verification of the e-commerce backend (product catalog, carts, listing
filters, pagination, realtime broadcast).

The HTTP routers are embedded directly from the source
(`routes/products`, `routes/carts`, `routes/views`, `app.js`).  The
mongoose model files (`Product.model.js`, `Cart.model.js`) are not part
of the sources available here; where their behaviour decides a claim the
corresponding definition is modelled from the specification and its doc
comment says so.

Conventions of the embedding:
- JavaScript strings are Lean `String`; an absent query parameter or
  body field is `none : Option String`.
- JavaScript `parseInt` is `parseIntJS`, returning `none` for `NaN`.
- The `x || d` defaulting idiom applied to a parsed number is
  `orDefault`: `NaN` and `0` are falsy and fall back to `d`.
- Money amounts are rationals; `toFixed(2)` is `round2` (round to the
  nearest multiple of 1/100).
-/

namespace Backend

/-- A catalog product document.  `id` stands for the Mongo `_id`,
`createdAt` for the creation timestamp. -/
structure Product where
  id : Nat
  title : String
  code : String
  price : ℚ
  status : Bool
  stock : Nat
  category : String
  createdAt : Nat
deriving DecidableEq, Repr

/-- The catalog collection. -/
abbrev Catalog := List Product

/-- `Product.findById` resolution by identifier. -/
def findProduct (cat : Catalog) (pid : Nat) : Option Product :=
  cat.find? (fun p => p.id = pid)

/-- The request query parameters used by the listing endpoints.
`none` is an absent parameter (JS `undefined`). -/
structure QueryParams where
  limit : Option String
  page : Option String
  sort : Option String
  query : Option String
  category : Option String
  status : Option String
deriving DecidableEq, Repr

/-- JavaScript truthiness of an optional string: absent and the empty
string are falsy. -/
def truthy : Option String → Bool
  | none => false
  | some s => !(s = "")

/-- JavaScript `String.prototype.trim`: strip whitespace from both
ends. -/
def trimJS (s : String) : String :=
  ⟨((s.data.dropWhile Char.isWhitespace).reverse.dropWhile
      Char.isWhitespace).reverse⟩

/-- ASCII lower-casing of one character. -/
def lowerChar (c : Char) : Char :=
  if 65 ≤ c.toNat ∧ c.toNat ≤ 90 then Char.ofNat (c.toNat + 32) else c

/-- JavaScript `String.prototype.toLowerCase` (ASCII range). -/
def toLowerJS (s : String) : String :=
  ⟨s.data.map lowerChar⟩

/-- The Mongo filter document built by the listing endpoints: at most a
`category` constraint and at most a `status` constraint. -/
structure Filter where
  category : Option String
  status : Option Bool
deriving DecidableEq, Repr

/-- The empty filter (matches every product). -/
def Filter.empty : Filter := ⟨none, none⟩

/-- `status === 'true' || status === '1' || status === 'yes'`. -/
def parseStatus (s : String) : Bool :=
  s = "true" || s = "1" || s = "yes"

/-- Filter construction of `GET /api/products` (routes/products):
`if (category) filter.category = category.trim();`
`if (status !== undefined) filter.status = status === 'true' || ...;`
`if (query && !category && status === undefined) { ... }`. -/
def buildFilterApi (q : QueryParams) : Filter :=
  let f0 : Filter := Filter.empty
  let f1 : Filter :=
    if truthy q.category then
      { f0 with category := some (trimJS (q.category.getD "")) }
    else f0
  let f2 : Filter :=
    match q.status with
    | some s => { f1 with status := some (parseStatus s) }
    | none => f1
  if truthy q.query && !truthy q.category && q.status.isNone then
    let raw := q.query.getD ""
    let ql := toLowerJS (trimJS raw)
    if ql = "true" || ql = "false" || ql = "disponible" || ql = "no disponible" then
      { f2 with status := some (ql = "true" || ql = "disponible") }
    else
      { f2 with category := some (trimJS raw) }
  else f2

/-- Filter construction of the view route `GET /products` (routes/views);
the source text of the construction is identical to the API route. -/
def buildFilterView (q : QueryParams) : Filter :=
  let f0 : Filter := Filter.empty
  let f1 : Filter :=
    if truthy q.category then
      { f0 with category := some (trimJS (q.category.getD "")) }
    else f0
  let f2 : Filter :=
    match q.status with
    | some s => { f1 with status := some (parseStatus s) }
    | none => f1
  if truthy q.query && !truthy q.category && q.status.isNone then
    let raw := q.query.getD ""
    let ql := toLowerJS (trimJS raw)
    if ql = "true" || ql = "false" || ql = "disponible" || ql = "no disponible" then
      { f2 with status := some (ql = "true" || ql = "disponible") }
    else
      { f2 with category := some (trimJS raw) }
  else f2

/-- Digits of a decimal numeral to the number they denote. -/
def digitsVal (cs : List Char) : Nat :=
  cs.foldl (fun acc c => 10 * acc + (c.toNat - '0'.toNat)) 0

/-- JavaScript `parseInt(s)` in base 10: skip leading whitespace, read an
optional sign and then the longest prefix of decimal digits; `none` is
`NaN` (no digits found). -/
def parseIntJS : Option String → Option Int
  | none => none
  | some s =>
    let cs := (trimJS s).data
    match cs with
    | '-' :: rest =>
      let ds := rest.takeWhile Char.isDigit
      if ds.isEmpty then none else some (-(digitsVal ds : Int))
    | '+' :: rest =>
      let ds := rest.takeWhile Char.isDigit
      if ds.isEmpty then none else some (digitsVal ds : Int)
    | _ =>
      let ds := cs.takeWhile Char.isDigit
      if ds.isEmpty then none else some (digitsVal ds : Int)

/-- The `parseInt(x) || d` idiom: `NaN` and `0` are falsy and give the
default `d`. -/
def orDefault (v : Option Int) (d : Int) : Int :=
  match v with
  | none => d
  | some n => if n = 0 then d else n

/-- `limit` coercion of `GET /api/products`:
`Math.max(1, parseInt(req.query.limit) || 10)`. -/
def apiLimit (q : QueryParams) : Int :=
  max 1 (orDefault (parseIntJS q.limit) 10)

/-- `page` coercion of `GET /api/products`:
`Math.max(1, parseInt(req.query.page) || 1)`. -/
def apiPage (q : QueryParams) : Int :=
  max 1 (orDefault (parseIntJS q.page) 1)

/-- `limit` coercion of the view route `GET /products`:
`parseInt(req.query.limit) || 10` (no clamping). -/
def viewLimit (q : QueryParams) : Int :=
  orDefault (parseIntJS q.limit) 10

/-- `page` coercion of the view route `GET /products`:
`parseInt(req.query.page) || 1` (no clamping). -/
def viewPage (q : QueryParams) : Int :=
  orDefault (parseIntJS q.page) 1

/-- The sort specification: by price ascending or descending, or the
natural order of the store. -/
inductive SortSpec where
  | priceAsc
  | priceDesc
  | natural
deriving DecidableEq, Repr

/-- Sort resolution shared textually by both listing endpoints:
`if (sort === 'asc') ... else if (sort === 'desc') ... else` nothing. -/
def resolveSort (sort : Option String) : SortSpec :=
  match sort with
  | some "asc" => .priceAsc
  | some "desc" => .priceDesc
  | _ => .natural

/-! ## Cart data model and consistency engine -/

/-- A cart line item: a product reference (foreign key) and a quantity. -/
structure LineItem where
  product : Nat
  quantity : Int
deriving DecidableEq, Repr

/-- A cart is its ordered list of line items. -/
abbrev Cart := List LineItem

/-- Errors raised by the cart engine. -/
inductive CartError where
  | invalidQuantity
  | productNotFound
  | productNotFoundInCart
  | invalidItems
deriving DecidableEq, Repr

deriving instance DecidableEq for Except

/-- Modelled from the spec: `Cart.model.js` is not among the sources.
`addProduct(cart, productId, quantity)` per section 4.3: the quantity
must be a positive integer (else `InvalidQuantityError`); the product
must resolve against the catalog (else `ProductNotFoundError`); if a
line item for the product exists its quantity is incremented, else a new
line item is appended. -/
def addProduct (cat : Catalog) (c : Cart) (pid : Nat) (qty : Int) :
    Except CartError Cart :=
  if qty < 1 then .error .invalidQuantity
  else if (findProduct cat pid).isNone then .error .productNotFound
  else if c.any (fun it => it.product = pid) then
    .ok (c.map fun it =>
      if it.product = pid then { it with quantity := it.quantity + qty } else it)
  else .ok (c ++ [⟨pid, qty⟩])

/-- Modelled from the spec: `Cart.model.js` is not among the sources.
`removeProduct(cart, productId)` per section 4.3: remove the matching
line item if present; absence is not an error. -/
def removeProduct (c : Cart) (pid : Nat) : Except CartError Cart :=
  .ok (c.filter (fun it => !(it.product = pid)))

/-- An entry of the item list given to `updateCart`. -/
structure ItemInput where
  product : Nat
  quantity : Int
deriving DecidableEq, Repr

/-- An `updateCart` input item is valid when its product resolves in
the catalog and its quantity is a positive integer. -/
def validItem (cat : Catalog) (it : ItemInput) : Bool :=
  (findProduct cat it.product).isSome && decide (1 ≤ it.quantity)

/-- Modelled from the spec: `Cart.model.js` is not among the sources.
`updateCart(cart, items)` per section 4.3: every item must have a
resolvable product and a positive integer quantity (else the call
fails); on success the entire line-item list is replaced; validation of
all items precedes any persistence. -/
def updateCart (cat : Catalog) (c : Cart) (items : List ItemInput) :
    Except CartError Cart :=
  if items.all (validItem cat) then
    .ok (items.map fun it => ⟨it.product, it.quantity⟩)
  else .error .invalidItems

/-- Modelled from the spec: `Cart.model.js` is not among the sources.
`updateProductQuantity(cart, productId, quantity)` per section 4.3:
quantity must be a positive integer; an existing line item has its
quantity set to the value; a missing line item is
`ProductNotFoundInCartError`. -/
def updateProductQuantity (c : Cart) (pid : Nat) (qty : Int) :
    Except CartError Cart :=
  if qty < 1 then .error .invalidQuantity
  else if c.any (fun it => it.product = pid) then
    .ok (c.map fun it =>
      if it.product = pid then { it with quantity := qty } else it)
  else .error .productNotFoundInCart

/-- Modelled from the spec: `Cart.model.js` is not among the sources.
`clearCart(cart)` per section 4.3: removes all line items. -/
def clearCart (_c : Cart) : Except CartError Cart :=
  .ok []

/-- The cart state after an engine call: unchanged when the call
errors, the returned cart when it succeeds. -/
def afterCall (c : Cart) : Except CartError Cart → Cart
  | .ok c' => c'
  | .error _ => c

/-- Carts reachable from the empty cart through the cart operations,
against a fixed catalog. -/
inductive Reachable (cat : Catalog) : Cart → Prop where
  | empty : Reachable cat []
  | add {c c' : Cart} {pid : Nat} {qty : Int} :
      Reachable cat c → addProduct cat c pid qty = .ok c' → Reachable cat c'
  | remove {c c' : Cart} {pid : Nat} :
      Reachable cat c → removeProduct c pid = .ok c' → Reachable cat c'
  | update {c c' : Cart} {items : List ItemInput} :
      Reachable cat c → updateCart cat c items = .ok c' → Reachable cat c'
  | setQty {c c' : Cart} {pid : Nat} {qty : Int} :
      Reachable cat c → updateProductQuantity c pid qty = .ok c' → Reachable cat c'
  | clear {c c' : Cart} :
      Reachable cat c → clearCart c = .ok c' → Reachable cat c'

/-- The per-cart uniqueness invariant: at most one line item per
distinct product identifier. -/
def uniqueProducts (c : Cart) : Prop :=
  (c.map LineItem.product).Nodup

/-- Carts reachable through the cart operations when every `updateCart`
call receives an item list with pairwise-distinct product identifiers. -/
inductive ReachableDistinct (cat : Catalog) : Cart → Prop where
  | empty : ReachableDistinct cat []
  | add {c c' : Cart} {pid : Nat} {qty : Int} :
      ReachableDistinct cat c → addProduct cat c pid qty = .ok c' →
      ReachableDistinct cat c'
  | remove {c c' : Cart} {pid : Nat} :
      ReachableDistinct cat c → removeProduct c pid = .ok c' →
      ReachableDistinct cat c'
  | update {c c' : Cart} {items : List ItemInput} :
      (items.map ItemInput.product).Nodup →
      ReachableDistinct cat c → updateCart cat c items = .ok c' →
      ReachableDistinct cat c'
  | setQty {c c' : Cart} {pid : Nat} {qty : Int} :
      ReachableDistinct cat c → updateProductQuantity c pid qty = .ok c' →
      ReachableDistinct cat c'
  | clear {c c' : Cart} :
      ReachableDistinct cat c → clearCart c = .ok c' →
      ReachableDistinct cat c'

/-! ## Read paths: populate and the cart view -/

/-- A populated line item: the resolved product (or `none` for a
dangling reference) and the quantity. -/
structure PopItem where
  product : Option Product
  quantity : Int
deriving DecidableEq, Repr

/-- Mongoose `populate('products.product')`: each line item keeps its
position; the reference is replaced in place by the resolved product,
`none` when the referenced product no longer exists. -/
def populateCart (cat : Catalog) (c : Cart) : List PopItem :=
  c.map (fun it => ⟨findProduct cat it.product, it.quantity⟩)

/-- `GET /api/carts/:cid` (routes/carts): returns the populated cart as
the payload, with no filtering and no totals. -/
def getCartApi (cat : Catalog) (c : Cart) : List PopItem :=
  populateCart cat c

/-- Floor of a rational, computably: `⌊q⌋ = q.num / q.den`. -/
def floorQ (q : ℚ) : ℤ :=
  q.num / (q.den : ℤ)

/-- Round a rational to the nearest integer (ties upward), computably. -/
def roundQ (q : ℚ) : ℤ :=
  floorQ (q + 1 / 2)

/-- Round to 2 decimal places: the model of `Number.prototype.toFixed(2)`
on exact (rational) arithmetic. -/
def round2 (q : ℚ) : ℚ :=
  (roundQ (q * 100) : ℚ) / 100

/-- A line of the cart view: the resolved product, its quantity and the
2-decimal subtotal. -/
structure DetailLine where
  product : Product
  quantity : Int
  subtotal : ℚ
deriving DecidableEq, Repr

/-- `GET /carts/:cid` (routes/views): populate, filter out line items
whose product was deleted, map each survivor to a subtotal
`(price * quantity).toFixed(2)`, and total the subtotals with a final
`toFixed(2)`. -/
def getWithDetails (cat : Catalog) (c : Cart) : List DetailLine × ℚ :=
  let pop := populateCart cat c
  let lines := pop.filterMap fun it =>
    it.product.map fun p => ⟨p, it.quantity, round2 (p.price * it.quantity)⟩
  (lines, round2 (lines.foldl (fun s l => s + l.subtotal) 0))

/-! ## Listing query: filter, sort, paginate -/

/-- Whether a product matches a filter document: every constraint
present in the filter must hold exactly. -/
def matchesFilter (f : Filter) (p : Product) : Bool :=
  (match f.category with
   | none => true
   | some c => p.category = c) &&
  (match f.status with
   | none => true
   | some b => p.status = b)

/-- Sorting a product list by a sort specification (price ascending or
descending, or the natural store order). -/
def sortProducts (s : SortSpec) (l : List Product) : List Product :=
  match s with
  | .priceAsc => l.insertionSort (fun a b => a.price ≤ b.price)
  | .priceDesc => l.insertionSort (fun a b => b.price ≤ a.price)
  | .natural => l

/-- The paginated query result (the labels used by the API route). -/
structure PageResult where
  payload : List Product
  totalDocs : Nat
  totalPages : Nat
  page : Nat
  hasPrevPage : Bool
  hasNextPage : Bool
  prevPage : Option Nat
  nextPage : Option Nat
deriving DecidableEq, Repr

/-- Modelled from the spec: the pagination plugin behind
`Product.paginate` is not among the sources.  Per section 4.2 the result
of `query(filter, sortSpec, page, limit)` carries
`totalPages = ceil(totalCount / limit)`, `hasPrevPage = page > 1`,
`hasNextPage = page < totalPages`, and `prevPage`/`nextPage` as the
adjacent page numbers or null; the page itself is the corresponding
`limit`-sized slice. -/
def paginate (l : List Product) (page limit : Nat) : PageResult :=
  let total := l.length
  let totalPages := (total + limit - 1) / limit
  { payload := (l.drop ((page - 1) * limit)).take limit
    totalDocs := total
    totalPages := totalPages
    page := page
    hasPrevPage := decide (1 < page)
    hasNextPage := decide (page < totalPages)
    prevPage := if 1 < page then some (page - 1) else none
    nextPage := if page < totalPages then some (page + 1) else none }

/-- The full listing query of `GET /api/products`: filter the catalog,
sort, paginate. -/
def runListQuery (cat : Catalog) (f : Filter) (s : SortSpec)
    (page limit : Nat) : PageResult :=
  paginate (sortProducts s (cat.filter (matchesFilter f))) page limit

/-! ## Catalog mutations and the realtime broadcast -/

/-- The broadcast ordering relation: created at least as recently. -/
def createdDesc (a b : Product) : Prop :=
  b.createdAt ≤ a.createdAt

instance : DecidableRel createdDesc :=
  fun a b => Nat.decLe b.createdAt a.createdAt

instance : IsTotal Product createdDesc :=
  ⟨fun a b => le_total b.createdAt a.createdAt⟩

instance : IsTrans Product createdDesc :=
  ⟨fun _ _ _ hab hbc => le_trans hbc hab⟩

/-- The realtime snapshot pushed to clients:
`Product.find().sort({ createdAt: -1 })`, i.e. all products ordered
most-recently-created first. -/
def snapshot (cat : Catalog) : List Product :=
  cat.insertionSort createdDesc

/-- Outcome of one catalog mutation handler: the catalog afterwards,
the list of `io.emit('products', ...)` payloads sent, and whether the
handler answered success. -/
structure MutationOutcome where
  catalog : Catalog
  broadcasts : List (List Product)
  success : Bool
deriving Repr

/-- `POST /api/products` (routes/products): save the new product (the
save fails on a duplicate `code`, per the unique index of the schema
modelled from the spec), then on success emit the full snapshot. -/
def createHandler (cat : Catalog) (p : Product) : MutationOutcome :=
  if cat.any (fun q => q.code = p.code) then ⟨cat, [], false⟩
  else
    let cat' := cat ++ [p]
    ⟨cat', [snapshot cat'], true⟩

/-- `PUT /api/products/:pid` (routes/products): `_id`, `createdAt` and
`updatedAt` are stripped from the body before
`findByIdAndUpdate(pid, body, { runValidators: true })`; a missing
product is 404 and a duplicate `code` is 400, both without a broadcast;
on success the full snapshot is emitted. -/
def updateHandler (cat : Catalog) (pid : Nat) (upd : Product → Product) :
    MutationOutcome :=
  match findProduct cat pid with
  | none => ⟨cat, [], false⟩
  | some p =>
    let p' := { upd p with id := p.id, createdAt := p.createdAt }
    if cat.any (fun q => !(q.id = pid) && (q.code = p'.code)) then ⟨cat, [], false⟩
    else
      let cat' := cat.map (fun q => if q.id = pid then p' else q)
      ⟨cat', [snapshot cat'], true⟩

/-- `DELETE /api/products/:pid` (routes/products):
`findByIdAndDelete(pid)`; a missing product is 404 without a broadcast;
on success the full snapshot is emitted. -/
def deleteHandler (cat : Catalog) (pid : Nat) : MutationOutcome :=
  match findProduct cat pid with
  | none => ⟨cat, [], false⟩
  | some _ =>
    let cat' := cat.filter (fun q => !(q.id = pid))
    ⟨cat', [snapshot cat'], true⟩

/-- Ordered most-recently-created first. -/
def sortedByCreatedDesc (l : List Product) : Prop :=
  l.Pairwise createdDesc

/-! ## The add-to-cart route quantity coercion -/

/-- Outcome of the quantity check of `POST /api/carts/:cid/product/:pid`. -/
inductive QtyOutcome where
  | rejected
  | accepted (q : Int)
deriving DecidableEq, Repr

/-- Quantity handling of `POST /api/carts/:cid/product/:pid`
(routes/carts): `const quantity = parseInt(req.body.quantity) || 1;`
then reject with 400 when `quantity < 1 || !Number.isInteger(quantity)`
(after the defaulting the value is always an integer, so the second
disjunct never fires). -/
def addRouteQuantity (body : Option String) : QtyOutcome :=
  let quantity := orDefault (parseIntJS body) 1
  if quantity < 1 then .rejected else .accepted quantity

/-- The availability words recognised by the `query` heuristic. -/
def availabilityWord (s : String) : Bool :=
  s = "true" || s = "false" || s = "disponible" || s = "no disponible"

/-- Whether an availability word denotes the available state. -/
def availabilityValue (s : String) : Bool :=
  s = "true" || s = "disponible"

/-! ## Sample data used by witnesses and counterexamples -/

/-- Sample product: id 1, price 10, created first. -/
def pA : Product :=
  ⟨1, "A", "CODE-A", 10, true, 5, "Laptops", 1⟩

/-- Sample product: id 2, price 5, created second. -/
def pB : Product :=
  ⟨2, "B", "CODE-B", 5, true, 5, "Laptops", 2⟩

/-- A query with both `category` and `status` supplied. -/
def qBoth : QueryParams :=
  ⟨none, none, none, none, some "Laptops", some "false"⟩

/-- A query with a negative `limit` and a negative `page`. -/
def qNeg : QueryParams :=
  ⟨some "-5", some "-2", none, none, none, none⟩

/-- The pagination contract of spec section 4.2 for one query result:
`totalPages` is the ceiling of `totalDocs / limit` (stated both through
ceiling division and through its defining bounds), the has-flags are
`page > 1` and `page < totalPages`, and `prevPage`/`nextPage` carry the
adjacent page numbers exactly when the corresponding flag is set —
including the case of zero matching products. -/
def paginationContract (r : PageResult) (page limit : Nat) : Prop :=
  r.page = page ∧
  r.totalPages = r.totalDocs ⌈/⌉ limit ∧
  r.totalDocs ≤ r.totalPages * limit ∧
  r.totalPages * limit < r.totalDocs + limit ∧
  (r.hasPrevPage = true ↔ 1 < page) ∧
  (r.hasNextPage = true ↔ page < r.totalPages) ∧
  (r.hasPrevPage = true → r.prevPage = some (page - 1)) ∧
  (r.hasPrevPage = false → r.prevPage = none) ∧
  (r.hasNextPage = true → r.nextPage = some (page + 1)) ∧
  (r.hasNextPage = false → r.nextPage = none) ∧
  (r.totalDocs = 0 → r.totalPages = 0 ∧ r.hasNextPage = false ∧ r.nextPage = none)

/-! # Theorems -/

/-! ## C2: listing filter precedence -/

/-- C2, the claim as stated is false: with both `category=Laptops` and
`status=false` supplied, the filter constrains both fields, not the
category alone; `status` is not ignored. -/
theorem C2_counterexample :
    buildFilterApi qBoth ≠ ⟨some "Laptops", none⟩ ∧
    buildFilterApi qBoth = ⟨some "Laptops", some false⟩ := by
  decide

/-- C2 (amended): a present `status` always contributes a boolean
constraint (even when `category` is also present); a truthy `category`
always contributes the trimmed exact-match constraint; the `query`
heuristic applies only when neither `category` (truthy) nor `status` is
given, mapping availability words to a status constraint and anything
else to a category constraint; with none of the three the filter is
empty. -/
theorem C2_filter_precedence_amended (q : QueryParams) :
    (∀ s, q.status = some s → (buildFilterApi q).status = some (parseStatus s)) ∧
    (truthy q.category = true →
      (buildFilterApi q).category = some (trimJS (q.category.getD ""))) ∧
    (truthy q.category = true → q.status = none →
      buildFilterApi q = ⟨some (trimJS (q.category.getD "")), none⟩) ∧
    (truthy q.category = false → q.status = none → truthy q.query = false →
      buildFilterApi q = Filter.empty) ∧
    (truthy q.category = false → q.status = none → truthy q.query = true →
      availabilityWord (toLowerJS (trimJS (q.query.getD ""))) = true →
      buildFilterApi q =
        ⟨none, some (availabilityValue (toLowerJS (trimJS (q.query.getD ""))))⟩) ∧
    (truthy q.category = false → q.status = none → truthy q.query = true →
      availabilityWord (toLowerJS (trimJS (q.query.getD ""))) = false →
      buildFilterApi q = ⟨some (trimJS (q.query.getD "")), none⟩) := by
  refine ⟨?_, ?_, ?_, ?_, ?_, ?_⟩
  · intro s hs
    simp only [buildFilterApi, hs, Option.isNone_some, Bool.and_false, if_neg]
    by_cases hc : truthy q.category = true <;>
      simp [hc, availabilityWord, availabilityValue]
  · intro hc
    simp only [buildFilterApi, hc, Bool.not_true, Bool.and_false, Bool.false_and]
    cases hst : q.status <;> simp
  · intro hc hst
    simp only [buildFilterApi, hc, hst, Bool.not_true, Bool.and_false, Bool.false_and]
    simp [Filter.empty]
  · intro hc hst hq
    simp [buildFilterApi, hc, hst, hq, Filter.empty]
  · intro hc hst hq hw
    simp only [availabilityWord] at hw
    simp [buildFilterApi, hc, hst, hq, hw, availabilityValue, Filter.empty]
  · intro hc hst hq hw
    simp only [availabilityWord] at hw
    simp [buildFilterApi, hc, hst, hq, hw, Filter.empty]

/-- C2 witness: the amended theorem applied at a query with category
`" Laptops "` and status `"yes"`. -/
theorem C2_witness :
    (buildFilterApi ⟨none, none, none, none, some " Laptops ", some "yes"⟩).status
        = some true ∧
    (buildFilterApi ⟨none, none, none, none, some " Laptops ", some "yes"⟩).category
        = some "Laptops" := by
  have h := C2_filter_precedence_amended
    ⟨none, none, none, none, some " Laptops ", some "yes"⟩
  constructor
  · rw [h.1 "yes" rfl]; decide
  · rw [h.2.1 (by decide)]; decide

/-! ## C6: add-to-cart quantity validation -/

/-- C6, the claim as stated is false: a supplied quantity of `"0"` and a
non-numeric quantity `"abc"` are not rejected; `parseInt(...) || 1`
silently coerces both to the default quantity 1 and the request is
accepted.  Only a parsed negative value is rejected. -/
theorem C6_counterexample :
    addRouteQuantity (some "0") = .accepted 1 ∧
    addRouteQuantity (some "abc") = .accepted 1 ∧
    addRouteQuantity (some "-3") = .rejected := by
  decide

/-- C6 (amended): the route rejects with 400 exactly when `parseInt` of
the body quantity yields a negative number; a missing, non-numeric or
zero quantity falls back to the default 1 and is accepted; every
accepted quantity is a positive integer. -/
theorem C6_quantity_check_amended (body : Option String) :
    (addRouteQuantity body = .rejected ↔
      ∃ n : Int, parseIntJS body = some n ∧ n < 0) ∧
    (∀ n, addRouteQuantity body = .accepted n → 1 ≤ n) ∧
    (parseIntJS body = none → addRouteQuantity body = .accepted 1) ∧
    (parseIntJS body = some 0 → addRouteQuantity body = .accepted 1) := by
  refine ⟨?_, ?_, ?_, ?_⟩
  · cases hp : parseIntJS body with
    | none => simp [addRouteQuantity, orDefault, hp]
    | some n =>
      by_cases h0 : n = 0
      · simp [addRouteQuantity, orDefault, hp, h0]
      · constructor
        · intro hr
          refine ⟨n, rfl, ?_⟩
          simp only [addRouteQuantity, orDefault, hp, if_neg h0] at hr
          by_cases hlt : n < 1
          · omega
          · simp [hlt] at hr
        · rintro ⟨m, hm, hneg⟩
          obtain rfl : n = m := by simpa using hm
          simp only [addRouteQuantity, orDefault, hp, if_neg h0]
          rw [if_pos (by omega)]
  · intro n hn
    cases hp : parseIntJS body with
    | none =>
      simp only [addRouteQuantity, orDefault, hp] at hn
      obtain rfl : (1 : Int) = n := by simpa using hn
      omega
    | some m =>
      by_cases h0 : m = 0
      · simp only [addRouteQuantity, orDefault, hp, if_pos h0] at hn
        obtain rfl : (1 : Int) = n := by simpa using hn
        omega
      · simp only [addRouteQuantity, orDefault, hp, if_neg h0] at hn
        by_cases hlt : m < 1
        · simp [hlt] at hn
        · rw [if_neg hlt] at hn
          obtain rfl : m = n := by simpa using hn
          omega
  · intro hp
    simp [addRouteQuantity, orDefault, hp]
  · intro hp
    simp [addRouteQuantity, orDefault, hp]

/-- C6 witness: the amended theorem applied at the bodies `"-7"` (a
rejection) and `"5"` (an acceptance). -/
theorem C6_witness :
    addRouteQuantity (some "-7") = .rejected ∧
    (1 : Int) ≤ 5 := by
  constructor
  · exact (C6_quantity_check_amended (some "-7")).1.mpr ⟨-7, by decide, by decide⟩
  · exact (C6_quantity_check_amended (some "5")).2.1 5 (by decide)

/-! ## C7: the two listing endpoints resolve parameters identically? -/

/-- C7, the claim as stated is false: on `limit=-5` the JSON endpoint
resolves limit 1 (it clamps with `Math.max(1, ...)`) while the view
endpoint resolves limit -5 (it does not clamp), so the two resolved
specifications differ and the view limit is not an integer ≥ 1. -/
theorem C7_counterexample :
    viewLimit qNeg = -5 ∧ apiLimit qNeg = 1 ∧
    viewLimit qNeg ≠ apiLimit qNeg ∧ ¬(1 ≤ viewLimit qNeg) ∧
    viewPage qNeg = -2 ∧ apiPage qNeg = 1 := by
  decide

/-- C7 (amended): the two listing endpoints build identical filters and
identical sort specifications, and their `limit`/`page` coercions share
the defaults 10 and 1; but only the JSON endpoint clamps to ≥ 1
(`api = max 1 view`), so the resolved numbers agree exactly when the
view value is already ≥ 1, and in particular whenever `parseInt` fails
(malformed input falls back to the default on both, never an error). -/
theorem C7_resolver_equivalence_amended (q : QueryParams) :
    buildFilterApi q = buildFilterView q ∧
    apiLimit q = max 1 (viewLimit q) ∧
    apiPage q = max 1 (viewPage q) ∧
    1 ≤ apiLimit q ∧ 1 ≤ apiPage q ∧
    (1 ≤ viewLimit q → apiLimit q = viewLimit q) ∧
    (1 ≤ viewPage q → apiPage q = viewPage q) ∧
    (parseIntJS q.limit = none → apiLimit q = 10 ∧ viewLimit q = 10) ∧
    (parseIntJS q.page = none → apiPage q = 1 ∧ viewPage q = 1) := by
  refine ⟨rfl, rfl, rfl, le_max_left 1 _, le_max_left 1 _, ?_, ?_, ?_, ?_⟩
  · intro h; exact max_eq_right h
  · intro h; exact max_eq_right h
  · intro h; simp [apiLimit, viewLimit, orDefault, h]
  · intro h; simp [apiPage, viewPage, orDefault, h]

/-- C7 witness: the amended theorem applied at the queries
`limit=5&page=2` (where the two endpoints agree) and at a malformed
`limit=abc` (where both fall back to the default 10). -/
theorem C7_witness :
    apiLimit ⟨some "5", some "2", none, none, none, none⟩ =
      viewLimit ⟨some "5", some "2", none, none, none, none⟩ ∧
    apiLimit ⟨some "abc", none, none, none, none, none⟩ = 10 ∧
    viewLimit ⟨some "abc", none, none, none, none, none⟩ = 10 := by
  refine ⟨?_, ?_⟩
  · exact (C7_resolver_equivalence_amended
      ⟨some "5", some "2", none, none, none, none⟩).2.2.2.2.2.1 (by decide)
  · exact (C7_resolver_equivalence_amended
      ⟨some "abc", none, none, none, none, none⟩).2.2.2.2.2.2.2.1 (by decide)

/-! ## C1: at most one line item per product -/

/-- Mapping line items in place (without changing which product each
refers to) preserves the list of product identifiers. -/
theorem map_products_eq (c : Cart) (g : LineItem → LineItem)
    (h : ∀ it, (g it).product = it.product) :
    (c.map g).map LineItem.product = c.map LineItem.product := by
  induction c with
  | nil => rfl
  | cons hd tl ih => simp [h, ih]

/-- `addProduct` on a cart not containing the product appends one new
line item. -/
theorem addProduct_ok_absent (cat : Catalog) (c : Cart) (pid : Nat) (q : Int)
    (c' : Cart)
    (hno : (List.any c fun it => decide (it.product = pid)) = false)
    (h : addProduct cat c pid q = .ok c') : c' = c ++ [⟨pid, q⟩] := by
  rw [addProduct] at h
  split_ifs at h with h1 h2 h3
  · exact absurd h3 (by simp [hno])
  · injection h with h
    exact h.symm

/-- `addProduct` on a cart already containing the product increments the
matching quantity in place. -/
theorem addProduct_ok_present (cat : Catalog) (c : Cart) (pid : Nat) (q : Int)
    (c' : Cart)
    (hyes : (List.any c fun it => decide (it.product = pid)) = true)
    (h : addProduct cat c pid q = .ok c') :
    c' = c.map fun it =>
      if it.product = pid then ⟨it.product, it.quantity + q⟩ else it := by
  rw [addProduct] at h
  split_ifs at h with h1 h2 h3
  injection h with h
  exact h.symm

/-- C1, the claim as stated is false: with product 1 in the catalog, the
cart holding two line items for product 1 is reachable by a single
`updateCart` call whose item list repeats the product (both entries pass
validation), and it violates the uniqueness invariant. -/
theorem C1_counterexample :
    Reachable [pA] [⟨1, 1⟩, ⟨1, 1⟩] ∧ ¬uniqueProducts [⟨1, 1⟩, ⟨1, 1⟩] := by
  constructor
  · exact @Reachable.update [pA] [] [⟨1, 1⟩, ⟨1, 1⟩] [⟨1, 1⟩, ⟨1, 1⟩]
      Reachable.empty (by decide)
  · unfold uniqueProducts
    decide

/-- C1 (amended): the uniqueness invariant holds for every cart
reachable through the cart operations provided each `updateCart` call
receives pairwise-distinct product identifiers (the other four
operations preserve it unconditionally); and `addProduct` called twice
with the same product identifier on a cart not containing it yields the
cart extended by the single line item `⟨pid, q1 + q2⟩`, never two
line items. -/
theorem C1_unique_products_amended (cat : Catalog) :
    (∀ c : Cart, ReachableDistinct cat c → uniqueProducts c) ∧
    (∀ (c c1 c2 : Cart) (pid : Nat) (q1 q2 : Int),
      (∀ it ∈ c, it.product ≠ pid) →
      addProduct cat c pid q1 = .ok c1 →
      addProduct cat c1 pid q2 = .ok c2 →
      c2 = c ++ [⟨pid, q1 + q2⟩]) := by
  constructor
  · intro c hreach
    induction hreach with
    | empty => exact List.nodup_nil
    | add hr heq ih =>
      rename_i c₀ c' pid qty
      rw [addProduct] at heq
      split_ifs at heq with hq hf hany
      · injection heq with h
        subst h
        unfold uniqueProducts at ih ⊢
        rw [map_products_eq]
        · exact ih
        · intro it
          by_cases h : it.product = pid <;> simp [h]
      · injection heq with h
        subst h
        unfold uniqueProducts at ih ⊢
        have hpid : pid ∉ c₀.map LineItem.product := by
          intro hmem
          obtain ⟨it, hit, hpr⟩ := List.mem_map.mp hmem
          have : (List.any c₀ fun it => decide (it.product = pid)) = true := by
            rw [List.any_eq_true]
            exact ⟨it, hit, by simp [hpr]⟩
          exact hany this
        simp [List.nodup_append, ih, hpid]
    | remove hr heq ih =>
      rename_i c₀ c' pid
      rw [removeProduct] at heq
      injection heq with h
      subst h
      unfold uniqueProducts at ih ⊢
      exact List.Nodup.sublist (List.Sublist.map _ (List.filter_sublist c₀)) ih
    | update hnd hr heq ih =>
      rename_i c₀ c' items
      rw [updateCart] at heq
      split_ifs at heq with hall
      injection heq with h
      subst h
      unfold uniqueProducts
      rw [List.map_map]
      exact hnd
    | setQty hr heq ih =>
      rename_i c₀ c' pid qty
      rw [updateProductQuantity] at heq
      split_ifs at heq with hq hany
      injection heq with h
      subst h
      unfold uniqueProducts at ih ⊢
      rw [map_products_eq]
      · exact ih
      · intro it
        by_cases h : it.product = pid <;> simp [h]
    | clear hr heq ih =>
      rename_i c₀ c'
      rw [clearCart] at heq
      injection heq with h
      subst h
      exact List.nodup_nil
  · intro c c1 c2 pid q1 q2 hno h1 h2
    have hnone : (List.any c fun it => decide (it.product = pid)) = false := by
      rw [List.any_eq_false]
      intro it hit
      simp [hno it hit]
    obtain rfl := addProduct_ok_absent cat c pid q1 c1 hnone h1
    have hmem : (List.any (c ++ [(⟨pid, q1⟩ : LineItem)])
        fun it => decide (it.product = pid)) = true := by
      rw [List.any_eq_true]
      exact ⟨⟨pid, q1⟩, by simp, by simp⟩
    obtain rfl := addProduct_ok_present cat _ pid q2 c2 hmem h2
    rw [List.map_append]
    congr 1
    · refine (List.map_congr_left ?_).trans (List.map_id c)
      intro it hit
      simp [hno it hit]
    · simp

/-- C1 witness: the amended theorem applied over the catalog `[pA]`: the
cart `[⟨1, 2⟩]` reached by one `addProduct` satisfies the invariant, and
adding product 1 twice (quantities 2 then 3) onto the empty cart gives
the single line item of quantity 5. -/
theorem C1_witness :
    uniqueProducts [⟨1, 2⟩] ∧
    ([⟨1, 5⟩] : Cart) = [] ++ [⟨1, 2 + 3⟩] := by
  have h := C1_unique_products_amended [pA]
  constructor
  · exact h.1 [⟨1, 2⟩] (@ReachableDistinct.add [pA] [] [⟨1, 2⟩] 1 2
      ReachableDistinct.empty (by decide))
  · have hadd1 : addProduct [pA] [] 1 2 = .ok [⟨1, 2⟩] := by decide
    have hadd2 : addProduct [pA] [⟨1, 2⟩] 1 3 = .ok [⟨1, 5⟩] := by decide
    exact h.2 [] [⟨1, 2⟩] [⟨1, 5⟩] 1 2 3 (by simp) hadd1 hadd2

/-! ## C3: updateCart is all-or-nothing -/

/-- C3: when any item of the list fails validation (unknown product or
non-positive quantity) `updateCart` fails and the cart is unchanged;
when all items validate the line-item list is replaced entirely by the
given list. -/
theorem C3_updateCart_atomic (cat : Catalog) (c : Cart) (items : List ItemInput) :
    ((∃ it ∈ items, findProduct cat it.product = none ∨ it.quantity < 1) →
      updateCart cat c items = .error .invalidItems ∧
      afterCall c (updateCart cat c items) = c) ∧
    ((∀ it ∈ items, (findProduct cat it.product).isSome ∧ 1 ≤ it.quantity) →
      updateCart cat c items =
        .ok (items.map fun it => (⟨it.product, it.quantity⟩ : LineItem))) := by
  constructor
  · rintro ⟨it, hmem, hbad⟩
    have hall : items.all (validItem cat) = false := by
      rw [List.all_eq_false]
      refine ⟨it, hmem, ?_⟩
      rcases hbad with h | h
      · simp [validItem, h]
      · simp [validItem]
        intro _
        omega
    rw [updateCart, if_neg (by simp [hall])]
    exact ⟨rfl, rfl⟩
  · intro hgood
    have hall : items.all (validItem cat) = true := by
      rw [List.all_eq_true]
      intro it hit
      have := hgood it hit
      simp [validItem, this.1]
      omega
    rw [updateCart, if_pos hall]

/-- C3 witness: the theorem applied at catalog `[pA]` (product 1 only),
the cart `[⟨1, 2⟩]`, the invalid item list `[⟨1, 1⟩, ⟨9, 1⟩]` and the
valid item list `[⟨1, 4⟩]`. -/
theorem C3_witness :
    updateCart [pA] [⟨1, 2⟩] [⟨1, 1⟩, ⟨9, 1⟩] = .error .invalidItems ∧
    afterCall [⟨1, 2⟩] (updateCart [pA] [⟨1, 2⟩] [⟨1, 1⟩, ⟨9, 1⟩]) = [⟨1, 2⟩] ∧
    updateCart [pA] [⟨1, 2⟩] [⟨1, 4⟩] = .ok [⟨1, 4⟩] := by
  have hbad := (C3_updateCart_atomic [pA] [⟨1, 2⟩] [⟨1, 1⟩, ⟨9, 1⟩]).1
    ⟨⟨9, 1⟩, by decide, Or.inl (by decide)⟩
  have hgood := (C3_updateCart_atomic [pA] [⟨1, 2⟩] [⟨1, 4⟩]).2 (by
    intro it hit
    simp only [List.mem_singleton] at hit
    subst hit
    exact ⟨by decide, by decide⟩)
  exact ⟨hbad.1, hbad.2, by rw [hgood]; decide⟩

/-! ## C8: removeProduct removes, and is an idempotent no-op on absence -/

/-- C8: `removeProduct` always succeeds; when no line item matches it
returns the cart exactly unchanged; afterwards no line item matches;
membership is exactly the old membership minus the matching product; and
removing again changes nothing (idempotence). -/
theorem C8_removeProduct_idempotent_noop (c : Cart) (pid : Nat) :
    ∃ c' : Cart, removeProduct c pid = .ok c' ∧
      ((∀ it ∈ c, it.product ≠ pid) → c' = c) ∧
      (∀ it ∈ c', it.product ≠ pid) ∧
      (∀ it : LineItem, it ∈ c' ↔ it ∈ c ∧ it.product ≠ pid) ∧
      removeProduct c' pid = .ok c' := by
  refine ⟨c.filter (fun it => !(it.product = pid)), rfl, ?_, ?_, ?_, ?_⟩
  · intro h
    refine List.filter_eq_self.mpr ?_
    intro it hit
    simp [h it hit]
  · intro it hit
    have := List.of_mem_filter hit
    simpa using this
  · intro it
    rw [List.mem_filter]
    simp
  · rw [removeProduct]
    congr 1
    rw [List.filter_filter]
    simp

/-- C8 witness: the theorem applied at the cart `[⟨1, 2⟩]` with the
absent product 3 (unchanged, no error) and with the present product 1
(line item removed). -/
theorem C8_witness :
    removeProduct [⟨1, 2⟩] 3 = .ok [⟨1, 2⟩] ∧
    removeProduct [⟨1, 2⟩] 1 = .ok [] := by
  obtain ⟨c', h1, h2, -, -, -⟩ := C8_removeProduct_idempotent_noop [⟨1, 2⟩] 3
  have hc : c' = [⟨1, 2⟩] := h2 (by simp)
  subst hc
  exact ⟨h1, by decide⟩

/-! ## C4: pagination arithmetic -/

/-- Ceiling division times the divisor is at least the dividend. -/
theorem le_ceil_mul (t l : Nat) (hl : 0 < l) : t ≤ ((t + l - 1) / l) * l := by
  cases t with
  | zero => simp
  | succ s =>
    have hdiv : (s + 1 + l - 1) / l = s / l + 1 := by
      have h : s + 1 + l - 1 = s + l := by omega
      rw [h, Nat.add_div_right s hl]
    rw [hdiv]
    have h3 := Nat.div_add_mod s l
    have h4 := Nat.mod_lt s hl
    nlinarith

/-- Ceiling division times the divisor overshoots by less than the
divisor. -/
theorem ceil_mul_lt (t l : Nat) (hl : 0 < l) : ((t + l - 1) / l) * l < t + l := by
  have h := Nat.div_mul_le_self (t + l - 1) l
  have h2 : t + l - 1 < t + l := by omega
  exact lt_of_le_of_lt h h2

/-- C4: for every filter, sort, page ≥ 1 and limit ≥ 1 the listing query
result satisfies the pagination contract of spec section 4.2,
including the case of a filter matching zero products. -/
theorem C4_pagination_result (cat : Catalog) (f : Filter) (srt : SortSpec)
    (page limit : Nat) (hp : 1 ≤ page) (hl : 1 ≤ limit) :
    paginationContract (runListQuery cat f srt page limit) page limit := by
  have hl0 : 0 < limit := hl
  unfold paginationContract runListQuery paginate
  dsimp only
  set t := (sortProducts srt (cat.filter (matchesFilter f))).length with ht
  refine ⟨rfl, ?_, ?_, ?_, ?_, ?_, ?_, ?_, ?_, ?_, ?_⟩
  · rw [Nat.ceilDiv_eq_add_pred_div]
  · exact le_ceil_mul t limit hl0
  · exact ceil_mul_lt t limit hl0
  · simp
  · simp
  · intro h
    simp only [decide_eq_true_eq] at h
    simp [h]
  · intro h
    simp only [decide_eq_false_iff_not] at h
    simp [h]
  · intro h
    simp only [decide_eq_true_eq] at h
    simp [h]
  · intro h
    simp only [decide_eq_false_iff_not] at h
    simp [h]
  · intro h0
    have hz : (t + limit - 1) / limit = 0 := by
      rw [h0]
      exact Nat.div_eq_of_lt (by omega)
    rw [hz]
    have hnp := Nat.not_lt_zero page
    exact ⟨rfl, by simp [hnp], by simp [hnp]⟩

/-- C4 witness: the theorem applied on the sample catalog with the
empty filter at page 1, limit 10, and with a filter matching zero
products at page 3, limit 2. -/
theorem C4_witness :
    paginationContract (runListQuery [pA, pB] Filter.empty SortSpec.natural 1 10) 1 10 ∧
    paginationContract (runListQuery [pA, pB] ⟨some "None", none⟩ SortSpec.natural 3 2) 3 2 :=
  ⟨C4_pagination_result [pA, pB] Filter.empty SortSpec.natural 1 10 (by decide) (by decide),
   C4_pagination_result [pA, pB] ⟨some "None", none⟩ SortSpec.natural 3 2 (by decide) (by decide)⟩

/-! ## C5: the cart view drops dangling references and totals money -/

/-- The computable rational floor agrees with the mathematical floor. -/
theorem floorQ_eq_floor (q : ℚ) : floorQ q = ⌊q⌋ :=
  Rat.floor_def.symm

/-- The computable rational rounding agrees with the mathematical
rounding. -/
theorem roundQ_eq_round (q : ℚ) : roundQ q = round q := by
  rw [roundQ, floorQ_eq_floor, round_eq]

/-- `round2` is rounding to the nearest multiple of 1/100. -/
theorem round2_eq (q : ℚ) : round2 q = ((round (q * 100) : ℤ) : ℚ) / 100 := by
  rw [round2, roundQ_eq_round]

/-- Summing subtotals by a left fold is summing the mapped list. -/
theorem foldl_add_eq_sum_map (l : List DetailLine) :
    l.foldl (fun s d => s + d.subtotal) 0 = (l.map DetailLine.subtotal).sum := by
  rw [List.sum_eq_foldl, List.foldl_map]

/-- The length of a `filterMap` is the number of elements on which the
function succeeds. -/
theorem length_filterMap_isSome {α β : Type} (g : α → Option β) (l : List α) :
    (l.filterMap g).length = (l.filter fun a => (g a).isSome).length := by
  induction l with
  | nil => rfl
  | cons hd tl ih =>
    cases hg : g hd <;>
      simp [List.filterMap_cons, hg, List.filter_cons, ih]

/-- The lines of the cart view, directly as a `filterMap` over the
cart. -/
theorem getWithDetails_fst (cat : Catalog) (c : Cart) :
    (getWithDetails cat c).1 = c.filterMap fun it =>
      (findProduct cat it.product).map fun p =>
        ⟨p, it.quantity, round2 (p.price * it.quantity)⟩ := by
  simp only [getWithDetails, populateCart, List.filterMap_map]
  rfl

/-- C5: the view read path keeps exactly the line items whose product
still resolves (dangling references are dropped without error), gives
each kept line the subtotal `price × quantity` rounded to 2 decimal
places, ties every kept line to an originating line item of the cart,
and returns as total the sum of the subtotals rounded to 2 decimal
places. -/
theorem C5_cart_view_details (cat : Catalog) (c : Cart) :
    (getWithDetails cat c).1.length =
      (c.filter fun it => (findProduct cat it.product).isSome).length ∧
    (∀ l ∈ (getWithDetails cat c).1,
      l.subtotal = ((round (l.product.price * l.quantity * 100) : ℤ) : ℚ) / 100) ∧
    (∀ l ∈ (getWithDetails cat c).1, ∃ it ∈ c,
      findProduct cat it.product = some l.product ∧ it.quantity = l.quantity) ∧
    (getWithDetails cat c).2 =
      ((round ((((getWithDetails cat c).1.map DetailLine.subtotal).sum) * 100) : ℤ) : ℚ)
        / 100 := by
  refine ⟨?_, ?_, ?_, ?_⟩
  · rw [getWithDetails_fst, length_filterMap_isSome]
    congr 1
    refine List.filter_congr ?_
    intro it _
    simp
  · intro l hl
    rw [getWithDetails_fst] at hl
    obtain ⟨it, hit, hsome⟩ := List.mem_filterMap.mp hl
    obtain ⟨p, hp, hval⟩ := Option.map_eq_some'.mp hsome
    subst hval
    simp [round2_eq]
  · intro l hl
    rw [getWithDetails_fst] at hl
    obtain ⟨it, hit, hsome⟩ := List.mem_filterMap.mp hl
    obtain ⟨p, hp, hval⟩ := Option.map_eq_some'.mp hsome
    subst hval
    exact ⟨it, hit, by simpa using hp, rfl⟩
  · have hsnd : (getWithDetails cat c).2 =
        round2 (((getWithDetails cat c).1.map DetailLine.subtotal).sum) := by
      show round2 _ = _
      rw [foldl_add_eq_sum_map]
      rfl
    rw [hsnd, round2_eq]

/-- C5 witness: the theorem applied at the scenario cart
`[⟨productA, qty 2⟩, ⟨productB, qty 1⟩]` with prices 10 and 5, whose
evaluated subtotals are 20 and 5 and whose total is 25. -/
theorem C5_witness :
    (∀ l ∈ (getWithDetails [pA, pB] [⟨1, 2⟩, ⟨2, 1⟩]).1,
      l.subtotal = ((round (l.product.price * l.quantity * 100) : ℤ) : ℚ) / 100) ∧
    (getWithDetails [pA, pB] [⟨1, 2⟩, ⟨2, 1⟩]).1.map DetailLine.subtotal = [20, 5] ∧
    (getWithDetails [pA, pB] [⟨1, 2⟩, ⟨2, 1⟩]).2 = 25 := by
  refine ⟨(C5_cart_view_details [pA, pB] [⟨1, 2⟩, ⟨2, 1⟩]).2.1, ?_, ?_⟩
  · with_unfolding_all decide
  · with_unfolding_all decide

/-! ## C9: every successful catalog mutation broadcasts a full snapshot -/

/-- C9: each catalog mutation handler (create, update, delete) emits on
success exactly one broadcast, the full snapshot of the new catalog, and
emits nothing on failure (leaving the catalog unchanged); the snapshot
is always a permutation of the whole catalog ordered
most-recently-created first (never a partial or diff list). -/
theorem C9_broadcast_on_mutation (cat : Catalog) (p : Product) (pid : Nat)
    (upd : Product → Product) :
    ((createHandler cat p).success = true →
      (createHandler cat p).broadcasts = [snapshot (createHandler cat p).catalog]) ∧
    ((createHandler cat p).success = false →
      (createHandler cat p).broadcasts = [] ∧ (createHandler cat p).catalog = cat) ∧
    ((updateHandler cat pid upd).success = true →
      (updateHandler cat pid upd).broadcasts =
        [snapshot (updateHandler cat pid upd).catalog]) ∧
    ((updateHandler cat pid upd).success = false →
      (updateHandler cat pid upd).broadcasts = [] ∧
      (updateHandler cat pid upd).catalog = cat) ∧
    ((deleteHandler cat pid).success = true →
      (deleteHandler cat pid).broadcasts = [snapshot (deleteHandler cat pid).catalog]) ∧
    ((deleteHandler cat pid).success = false →
      (deleteHandler cat pid).broadcasts = [] ∧ (deleteHandler cat pid).catalog = cat) ∧
    (∀ l : Catalog, (snapshot l).Perm l ∧ sortedByCreatedDesc (snapshot l)) := by
  refine ⟨?_, ?_, ?_, ?_, ?_, ?_, ?_⟩
  · unfold createHandler
    split_ifs <;> simp
  · unfold createHandler
    split_ifs <;> simp
  · unfold updateHandler
    cases findProduct cat pid <;> dsimp only <;> [simp; split_ifs <;> simp]
  · unfold updateHandler
    cases findProduct cat pid <;> dsimp only <;> [simp; split_ifs <;> simp]
  · unfold deleteHandler
    cases findProduct cat pid <;> simp
  · unfold deleteHandler
    cases findProduct cat pid <;> simp
  · intro l
    exact ⟨List.perm_insertionSort createdDesc l,
      List.sorted_insertionSort createdDesc l⟩

/-- C9 witness: the theorem applied over the one-product catalog `[pA]`
for a successful create (of `pB`), a successful update (identity data on
product 1) and a successful delete (of product 1). -/
theorem C9_witness :
    (createHandler [pA] pB).broadcasts = [snapshot (createHandler [pA] pB).catalog] ∧
    (updateHandler [pA] 1 id).broadcasts = [snapshot (updateHandler [pA] 1 id).catalog] ∧
    (deleteHandler [pA] 1).broadcasts = [snapshot (deleteHandler [pA] 1).catalog] := by
  have h := C9_broadcast_on_mutation [pA] pB 1 id
  exact ⟨h.1 (by with_unfolding_all decide),
    h.2.2.1 (by with_unfolding_all decide),
    h.2.2.2.2.1 (by with_unfolding_all decide)⟩

/-! ## C10: the JSON cart endpoint resolves in place without dropping -/

/-- A filter keeping strictly fewer elements than the list has witnesses
an element failing the predicate. -/
theorem filter_length_lt {α : Type} (p : α → Bool) (l : List α)
    (h : ∃ a ∈ l, p a = false) : (l.filter p).length < l.length := by
  induction l with
  | nil => exact absurd h (by simp)
  | cons hd tl ih =>
    rw [List.filter_cons]
    by_cases hp : p hd = true
    · rw [if_pos hp]
      simp only [List.length_cons]
      refine Nat.succ_lt_succ (ih ?_)
      rcases h with ⟨a, ha, hpa⟩
      rcases List.mem_cons.mp ha with rfl | ha
      · exact absurd hp (by simp [hpa])
      · exact ⟨a, ha, hpa⟩
    · rw [if_neg hp]
      simp only [List.length_cons]
      exact Nat.lt_succ_of_le (List.length_filter_le p tl)

/-- C10: `GET /api/carts/:cid` returns one populated entry per line item
of the cart — a dangling product reference is resolved to `none` in
place rather than dropped — each entry carrying exactly the catalog
resolution and the original quantity; when some reference dangles, the
view read path (which drops) returns strictly fewer lines than this
endpoint. -/
theorem C10_api_cart_populate_no_drop (cat : Catalog) (c : Cart) :
    (getCartApi cat c).length = c.length ∧
    List.Forall₂ (fun (it : LineItem) (pit : PopItem) =>
      pit.product = findProduct cat it.product ∧ pit.quantity = it.quantity)
      c (getCartApi cat c) ∧
    ((∃ it ∈ c, findProduct cat it.product = none) →
      (getWithDetails cat c).1.length < (getCartApi cat c).length) := by
  refine ⟨?_, ?_, ?_⟩
  · simp [getCartApi, populateCart]
  · unfold getCartApi populateCart
    rw [List.forall₂_map_right_iff]
    rw [List.forall₂_same]
    intro it _
    exact ⟨rfl, rfl⟩
  · intro hdang
    have hlen : (getCartApi cat c).length = c.length := by
      simp [getCartApi, populateCart]
    rw [hlen, getWithDetails_fst, length_filterMap_isSome]
    apply filter_length_lt
    obtain ⟨it, hit, hnone⟩ := hdang
    exact ⟨it, hit, by simp [hnone]⟩

/-- C10 witness: the theorem applied at the catalog `[pA]` and the cart
`[⟨1, 2⟩, ⟨9, 1⟩]` whose second reference dangles: the endpoint returns
2 entries while the view path keeps 1 line. -/
theorem C10_witness :
    (getCartApi [pA] [⟨1, 2⟩, ⟨9, 1⟩]).length = 2 ∧
    (getWithDetails [pA] [⟨1, 2⟩, ⟨9, 1⟩]).1.length <
      (getCartApi [pA] [⟨1, 2⟩, ⟨9, 1⟩]).length := by
  have h := C10_api_cart_populate_no_drop [pA] [⟨1, 2⟩, ⟨9, 1⟩]
  constructor
  · rw [h.1]
    rfl
  · exact h.2.2 ⟨⟨9, 1⟩, by decide, by decide⟩

end Backend
